import Mathlib

/-!
Shallow embedding of the V8 interpreter bytecode disassembler
(src/deps/v8/src/interpreter/bytecode-decoder.cc), together with theorems
about its behaviour.  The instruction-set metadata (the `Bytecodes` free
functions) and the register addressing scheme (`Register`) are external
collaborators declared outside this translation unit; they are modelled as
an abstract read-only service record, exactly the interface the decoder
consumes.  The output stream is modelled by the text written so far plus
the formatting state the decoder reads and writes (fill character and
number-base flags).
-/

namespace BytecodeDecoder

/-- Operand scale multipliers selecting operand byte widths (×1, ×2, ×4). -/
inductive OperandScale where
  | kSingle
  | kDouble
  | kQuad
  deriving DecidableEq

/-- Resolved operand byte widths; kNone is never a valid resolution at
decode time. -/
inductive OperandSize where
  | kNone
  | kByte
  | kShort
  | kQuad
  deriving DecidableEq

/-- Operand roles, the cases of the rendering switch in
`BytecodeDecoder::Decode`. -/
inductive OperandType where
  | kNone
  | kFlag8
  | kIdx
  | kImm
  | kIntrinsicId
  | kRegCount
  | kRuntimeId
  | kMaybeReg
  | kReg
  | kRegOut
  | kRegOutPair
  | kRegOutTriple
  | kRegPair
  deriving DecidableEq

/-- The external instruction-set metadata and register-addressing
collaborators (`Bytecodes` free functions and `Register`, declared in other
translation units).  A bytecode is identified by its opcode byte value
(`Bytecodes::FromByte` is the identity on the byte).  A register is
identified by its integer index. -/
structure Bytecodes where
  /-- Source `Bytecodes::IsPrefixScalingBytecode`. -/
  isPrefixScalingBytecode : Nat → Bool
  /-- Source `Bytecodes::PrefixBytecodeToOperandScale`. -/
  prefixBytecodeToOperandScale : Nat → OperandScale
  /-- Source `Bytecodes::Size(bytecode, operand_scale)`. -/
  size : Nat → OperandScale → Nat
  /-- Source `Bytecodes::NumberOfOperands(bytecode)`. -/
  numberOfOperands : Nat → Nat
  /-- Source `Bytecodes::GetOperandType(bytecode, i)`. -/
  getOperandType : Nat → Nat → OperandType
  /-- Source `Bytecodes::GetOperandOffset(bytecode, i, operand_scale)`. -/
  getOperandOffset : Nat → Nat → OperandScale → Nat
  /-- Source `Bytecodes::ToString(bytecode, operand_scale)`, the mnemonic text. -/
  toString : Nat → OperandScale → String
  /-- Source `Bytecodes::IsDebugBreak(bytecode)`. -/
  isDebugBreak : Nat → Bool
  /-- Source `Bytecodes::SizeOfOperand(operand_type, operand_scale)`. -/
  sizeOfOperand : OperandType → OperandScale → OperandSize
  /-- Source `Register::FromOperand`: inverts the producer's register-encoding
  bias, mapping the decoded signed operand to a register index. -/
  registerFromOperand : Int → Int
  /-- Source `Register::ToString(parameter_count)`: text form of a register index
  relative to the frame's parameter count. -/
  registerToString : Int → Nat → String

/-- Base-field component of a C++ stream's formatting flags.  Only the
stream state this component reads or writes is modelled. -/
inductive Base where
  | dec
  | hex
  deriving DecidableEq

/-- The numeric-formatting state of a stream: fill character and the
number-base flags. -/
structure FmtState where
  fill : Char
  basefield : Base
  deriving DecidableEq

/-- Format state of a default-constructed `std::ios(nullptr)`: fill is the
space character, basefield is decimal. -/
def defaultFmt : FmtState := { fill := ' ', basefield := Base.dec }

/-- The format installed by `os.fill(48=0)` and `os.flags(std::ios::hex)`
before the raw bytes are printed. -/
def hexFmt : FmtState := { fill := '0', basefield := Base.hex }

/-- An output stream: the characters written so far and the current
numeric-formatting state. -/
structure OStream where
  text : String
  fmt : FmtState
  deriving DecidableEq

/-- Digits of `n` in the given base, lowercase, exactly as an ostream
prints the magnitude. -/
def natToBase (base n : Nat) : String := String.mk (Nat.toDigits base n)

/-- Rendering of an unsigned integer by `operator<<` under format `f` with
field width `w`: digits in the active base, left-padded to `w` with the
fill character (default right adjustment). -/
def fmtNat (f : FmtState) (w : Nat) (n : Nat) : String :=
  let s := match f.basefield with
    | Base.dec => natToBase 10 n
    | Base.hex => natToBase 16 n
  String.mk (List.replicate (w - s.length) f.fill) ++ s

/-- Rendering of a signed integer by `operator<<` under format `f`: in
decimal a negative value prints a leading minus; under hex/oct `num_put`
converts the value to its unsigned 64-bit representation. -/
def fmtInt (f : FmtState) (w : Nat) (i : Int) : String :=
  match f.basefield with
  | Base.dec =>
    let s := if i < 0 then "-" ++ natToBase 10 i.natAbs else natToBase 10 i.toNat
    String.mk (List.replicate (w - s.length) f.fill) ++ s
  | Base.hex => fmtNat f w (i.emod (2 ^ 64)).toNat

/-- Two's-complement reinterpretation of a `w`-bit unsigned value, the
meaning of the C++ casts `static_cast<int8_t>` / `int16_t` / `int32_t`. -/
def toSigned (w n : Nat) : Int :=
  if n < 2 ^ (w - 1) then (n : Int) else (n : Int) - 2 ^ w

/-- Modelled from the spec: `ReadUnalignedUInt16` (src/utils.h, not part of
this translation unit) — raw 2-byte read at the cursor, little-endian byte
order.  The buffer is a byte memory, so each cell is reduced mod 256. -/
def readUnalignedUInt16 (buf : Nat → Nat) (i : Nat) : Nat :=
  buf i % 256 + 256 * (buf (i + 1) % 256)

/-- Modelled from the spec: `ReadUnalignedUInt32` (src/utils.h, not part of
this translation unit) — raw 4-byte read at the cursor, little-endian byte
order. -/
def readUnalignedUInt32 (buf : Nat → Nat) (i : Nat) : Nat :=
  buf i % 256 + 256 * (buf (i + 1) % 256) + 65536 * (buf (i + 2) % 256) +
    16777216 * (buf (i + 3) % 256)

/-- Source `BytecodeDecoder::DecodeSignedOperand`: resolves the operand width via
metadata and reads 1/2/4 bytes at the cursor, sign-extending the 8- and
16-bit forms to a 32-bit signed value.  The `OperandSize::kNone` arm is
`UNREACHABLE()` (process abort), modelled as `none`. -/
def DecodeSignedOperand (m : Bytecodes) (buf : Nat → Nat) (operand_start : Nat)
    (operand_type : OperandType) (operand_scale : OperandScale) : Option Int :=
  match m.sizeOfOperand operand_type operand_scale with
  | OperandSize.kByte => some (toSigned 8 (buf operand_start % 256))
  | OperandSize.kShort => some (toSigned 16 (readUnalignedUInt16 buf operand_start))
  | OperandSize.kQuad => some (toSigned 32 (readUnalignedUInt32 buf operand_start))
  | OperandSize.kNone => none

/-- Source `BytecodeDecoder::DecodeUnsignedOperand`: resolves the operand width
via metadata and reads 1/2/4 bytes at the cursor, zero-extending to a
32-bit unsigned value.  The `OperandSize::kNone` arm is `UNREACHABLE()`. -/
def DecodeUnsignedOperand (m : Bytecodes) (buf : Nat → Nat) (operand_start : Nat)
    (operand_type : OperandType) (operand_scale : OperandScale) : Option Nat :=
  match m.sizeOfOperand operand_type operand_scale with
  | OperandSize.kByte => some (buf operand_start % 256)
  | OperandSize.kShort => some (readUnalignedUInt16 buf operand_start)
  | OperandSize.kQuad => some (readUnalignedUInt32 buf operand_start)
  | OperandSize.kNone => none

/-- Source `BytecodeDecoder::DecodeRegisterOperand`: decodes via the signed path
and applies `Register::FromOperand`. -/
def DecodeRegisterOperand (m : Bytecodes) (buf : Nat → Nat) (operand_start : Nat)
    (operand_type : OperandType) (operand_scale : OperandScale) : Option Int :=
  (DecodeSignedOperand m buf operand_start operand_type operand_scale).map
    m.registerFromOperand

/-- Modelled from the spec: `Bytecodes::IsUnsignedOperandType`
(src/interpreter/bytecodes.h, not part of this translation unit) — the
unsigned-only operand roles are count, index, runtime-id, intrinsic-id and
flag. -/
def isUnsignedOperandType : OperandType → Bool
  | OperandType.kFlag8 => true
  | OperandType.kIdx => true
  | OperandType.kIntrinsicId => true
  | OperandType.kRegCount => true
  | OperandType.kRuntimeId => true
  | _ => false

/-- Modelled from the spec: `Bytecodes::IsRegisterOperandType`
(src/interpreter/bytecodes.h, not part of this translation unit) — the
register-category operand roles. -/
def isRegisterOperandType : OperandType → Bool
  | OperandType.kMaybeReg => true
  | OperandType.kReg => true
  | OperandType.kRegOut => true
  | OperandType.kRegOutPair => true
  | OperandType.kRegOutTriple => true
  | OperandType.kRegPair => true
  | _ => false

/-- The hex-byte section of the output: the first `k` buffer bytes, each
printed with field width 2 under format `f` and followed by one space
(the loop at bytecode-decoder.cc:81-83, in loop order). -/
def hexText (f : FmtState) (buf : Nat → Nat) : Nat → String
  | 0 => ""
  | k + 1 => hexText f buf k ++ (fmtNat f 2 (buf k % 256) ++ " ")

/-- Repeats the literal three-character blank group the given number of times. -/
def padGo : Nat → String
  | 0 => ""
  | n + 1 => "   " ++ padGo n

/-- The padding loop at bytecode-decoder.cc:87-89: starting at byte-group
column `i`, emit one three-character blank per remaining column up to the
fixed column width 6. -/
def padLoop (i : Nat) : String := padGo (6 - i)

/-- Scale-prefix resolution (bytecode-decoder.cc:65-72): the first byte is
the candidate opcode; if metadata marks it as a scale prefix, the prefix
length is 1, the scale is the one the prefix denotes and the opcode is
re-resolved from the second byte.  Returns
(prefix_offset, operand_scale, bytecode). -/
def resolveHeader (m : Bytecodes) (buf : Nat → Nat) : Nat × OperandScale × Nat :=
  let b0 := buf 0 % 256
  if m.isPrefixScalingBytecode b0 then
    (1, m.prefixBytecodeToOperandScale b0, buf 1 % 256)
  else
    (0, OperandScale.kSingle, b0)

/-- Total bytes the call accounts for: `prefix_offset + bytecode_size`. -/
def consumedBytes (m : Bytecodes) (buf : Nat → Nat) : Nat :=
  (resolveHeader m buf).1 + m.size (resolveHeader m buf).2.2 (resolveHeader m buf).2.1

/-- Shared register-range rendering body (the fused
`kRegOutPair`/`kRegPair` case at bytecode-decoder.cc:134-143, with
`range` already incremented): decode the first register, let the last be
`Register(first_reg.index() + range)`, and print `first-last`. -/
def regRange (m : Bytecodes) (buf : Nat → Nat) (parameter_count : Nat)
    (operand_start : Nat) (op_type : OperandType) (operand_scale : OperandScale)
    (range : Nat) : Option (String × Nat) :=
  (DecodeRegisterOperand m buf operand_start op_type operand_scale).map
    (fun first_reg =>
      (m.registerToString first_reg parameter_count ++ "-" ++
        m.registerToString (first_reg + (range : Int)) parameter_count, range))

/-- One iteration of the operand-rendering switch
(bytecode-decoder.cc:99-147) under format `f`, carrying the `range`
accumulator (declared outside the loop in the source).  Returns the text
this operand appends and the updated `range`.  The `kRegOutTriple` case
falls through the pair case, so it increments `range` twice.  The
`OperandType::kNone` arm is `UNREACHABLE()`. -/
def renderOperand (m : Bytecodes) (buf : Nat → Nat) (parameter_count : Nat)
    (prefix_offset : Nat) (operand_scale : OperandScale) (bytecode : Nat)
    (f : FmtState) (i : Nat) (range : Nat) : Option (String × Nat) :=
  let op_type := m.getOperandType bytecode i
  let operand_start := prefix_offset + m.getOperandOffset bytecode i operand_scale
  match op_type with
  | OperandType.kRegCount =>
    (DecodeUnsignedOperand m buf operand_start op_type operand_scale).map
      (fun v => ("#" ++ fmtNat f 0 v, range))
  | OperandType.kIdx =>
    (DecodeUnsignedOperand m buf operand_start op_type operand_scale).map
      (fun v => ("[" ++ fmtNat f 0 v ++ "]", range))
  | OperandType.kRuntimeId =>
    (DecodeUnsignedOperand m buf operand_start op_type operand_scale).map
      (fun v => ("[" ++ fmtNat f 0 v ++ "]", range))
  | OperandType.kIntrinsicId =>
    (DecodeUnsignedOperand m buf operand_start op_type operand_scale).map
      (fun v => ("[" ++ fmtNat f 0 v ++ "]", range))
  | OperandType.kImm =>
    (DecodeSignedOperand m buf operand_start op_type operand_scale).map
      (fun v => ("[" ++ fmtInt f 0 v ++ "]", range))
  | OperandType.kFlag8 =>
    (DecodeUnsignedOperand m buf operand_start op_type operand_scale).map
      (fun v => ("#" ++ fmtNat f 0 v, range))
  | OperandType.kMaybeReg =>
    (DecodeRegisterOperand m buf operand_start op_type operand_scale).map
      (fun reg => (m.registerToString reg parameter_count, range))
  | OperandType.kReg =>
    (DecodeRegisterOperand m buf operand_start op_type operand_scale).map
      (fun reg => (m.registerToString reg parameter_count, range))
  | OperandType.kRegOut =>
    (DecodeRegisterOperand m buf operand_start op_type operand_scale).map
      (fun reg => (m.registerToString reg parameter_count, range))
  | OperandType.kRegOutTriple =>
    regRange m buf parameter_count operand_start op_type operand_scale (range + 2)
  | OperandType.kRegOutPair =>
    regRange m buf parameter_count operand_start op_type operand_scale (range + 1)
  | OperandType.kRegPair =>
    regRange m buf parameter_count operand_start op_type operand_scale (range + 1)
  | OperandType.kNone => none

/-- The operand loop (bytecode-decoder.cc:98-151) over the remaining
operand indices, threading the `range` accumulator; `", "` is appended
after every operand except the last one. -/
def renderOperands (m : Bytecodes) (buf : Nat → Nat) (parameter_count : Nat)
    (prefix_offset : Nat) (operand_scale : OperandScale) (bytecode : Nat)
    (f : FmtState) : List Nat → Nat → Option String
  | [], _ => some ("")
  | i :: rest, range =>
    match renderOperand m buf parameter_count prefix_offset operand_scale bytecode
        f i range with
    | none => none
    | some (s, range1) =>
      match renderOperands m buf parameter_count prefix_offset operand_scale
          bytecode f rest range1 with
      | none => none
      | some t => some (s ++ (if rest.isEmpty then "" else ", ") ++ t)

/-- Source `BytecodeDecoder::Decode` (bytecode-decoder.cc:62-153).  Note the
source's line 75-76: `std::ios saved_format(nullptr);
saved_format.copyfmt(saved_format);` copies `saved_format` from itself, so
`saved_format` holds the format of a default-constructed stream, not the
caller's format; line 84 `os.copyfmt(saved_format)` installs that default
format on `os`. -/
def Decode (m : Bytecodes) (buf : Nat → Nat) (parameter_count : Nat)
    (os : OStream) : Option OStream :=
  let hdr := resolveHeader m buf
  let prefix_offset := hdr.1
  let operand_scale := hdr.2.1
  let bytecode := hdr.2.2
  let saved_format : FmtState := defaultFmt
  let os := { os with fmt := hexFmt }
  let bytecode_size := m.size bytecode operand_scale
  let os := { os with text := os.text ++ hexText os.fmt buf (prefix_offset + bytecode_size) }
  let os := { os with fmt := saved_format }
  let os := { os with text := os.text ++ padLoop (prefix_offset + bytecode_size) }
  let os := { os with text := os.text ++ (m.toString bytecode operand_scale ++ " ") }
  if m.isDebugBreak bytecode then some os
  else
    match renderOperands m buf parameter_count prefix_offset operand_scale bytecode
        os.fmt (List.range (m.numberOfOperands bytecode)) 0 with
    | none => none
    | some t => some { os with text := os.text ++ t }

/-- The text one call appends to an empty default stream. -/
def DecodeText (m : Bytecodes) (buf : Nat → Nat) (parameter_count : Nat) :
    Option String :=
  (Decode m buf parameter_count { text := "", fmt := defaultFmt }).map OStream.text

/-- The hex/padding/mnemonic header every successful call emits. -/
def headerText (m : Bytecodes) (buf : Nat → Nat) : String :=
  hexText hexFmt buf (consumedBytes m buf) ++ padLoop (consumedBytes m buf) ++
    (m.toString (resolveHeader m buf).2.2 (resolveHeader m buf).2.1 ++ " ")

/-- The `range` increment an operand role contributes (pair-fallthrough
cases of the rendering switch). -/
def rangeIncr : OperandType → Nat
  | OperandType.kRegOutTriple => 2
  | OperandType.kRegOutPair => 1
  | OperandType.kRegPair => 1
  | _ => 0

/-- Sum of `range` increments over a list of operand indices. -/
def incrSum (m : Bytecodes) (bytecode : Nat) (idxs : List Nat) : Nat :=
  (idxs.map (fun j => rangeIncr (m.getOperandType bytecode j))).sum

/-- The accumulated `range` value with which operand `i` is processed:
the sum of the increments of all earlier operands. -/
def rangeBefore (m : Bytecodes) (bytecode : Nat) (i : Nat) : Nat :=
  incrSum m bytecode (List.range i)

/-- The text fragment operand `i` renders when processed with accumulator
value `r` (empty on the abort path). -/
def fragText (m : Bytecodes) (buf : Nat → Nat) (parameter_count : Nat)
    (prefix_offset : Nat) (operand_scale : OperandScale) (bytecode : Nat)
    (f : FmtState) (i : Nat) (r : Nat) : String :=
  ((renderOperand m buf parameter_count prefix_offset operand_scale bytecode
      f i r).map Prod.fst).getD ("")

/-- The per-operand fragments of the operand loop, with the accumulator
threaded through. -/
def fragsFrom (m : Bytecodes) (buf : Nat → Nat) (parameter_count : Nat)
    (prefix_offset : Nat) (operand_scale : OperandScale) (bytecode : Nat)
    (f : FmtState) : List Nat → Nat → Option (List String)
  | [], _ => some []
  | i :: rest, range =>
    match renderOperand m buf parameter_count prefix_offset operand_scale bytecode
        f i range with
    | none => none
    | some (s, range1) =>
      (fragsFrom m buf parameter_count prefix_offset operand_scale bytecode f
        rest range1).map (fun l => s :: l)

/-- Join a list of fragments with a separator between consecutive elements
and none after the last. -/
def joinSep (sep : String) : List String → String
  | [] => ""
  | [s] => s
  | s :: l => s ++ sep ++ joinSep sep (l)

/-- A byte buffer holding the given list of bytes (zero past the end). -/
def listBuf (l : List Nat) : Nat → Nat := fun i => l.getD i 0

/-- A small concrete instantiation of the external metadata service, used
to evaluate the decoder on concrete instructions.  Opcode 1 is the
Wide-style scale prefix (scale ×2); opcode 2 takes one immediate; opcode 3
is a debug-break marker with two declared operands; opcode 4 takes an
index and a register. -/
def sampleBytecodes : Bytecodes where
  isPrefixScalingBytecode := fun b => b == 1
  prefixBytecodeToOperandScale := fun _ => OperandScale.kDouble
  size := fun b sc =>
    match b, sc with
    | 2, OperandScale.kSingle => 2
    | 2, OperandScale.kDouble => 3
    | 2, OperandScale.kQuad => 5
    | 3, _ => 1
    | 4, OperandScale.kSingle => 3
    | _, _ => 1
  numberOfOperands := fun b =>
    match b with
    | 2 => 1
    | 3 => 2
    | 4 => 2
    | _ => 0
  getOperandType := fun b i =>
    match b, i with
    | 2, 0 => OperandType.kImm
    | 3, 0 => OperandType.kImm
    | 3, 1 => OperandType.kReg
    | 4, 0 => OperandType.kIdx
    | 4, 1 => OperandType.kReg
    | _, _ => OperandType.kNone
  toString := fun b sc =>
    match b, sc with
    | 2, OperandScale.kSingle => "LdaSmi"
    | 2, OperandScale.kDouble => "LdaSmi.Wide"
    | 2, OperandScale.kQuad => "LdaSmi.ExtraWide"
    | 3, _ => "DebugBreak1"
    | 4, _ => "LdaGlobal"
    | _, _ => "Illegal"
  getOperandOffset := fun b i _ =>
    match b, i with
    | 2, 0 => 1
    | 3, 0 => 1
    | 3, 1 => 2
    | 4, 0 => 1
    | 4, 1 => 2
    | _, _ => 0
  isDebugBreak := fun b => b == 3
  sizeOfOperand := fun t sc =>
    match t, sc with
    | OperandType.kNone, _ => OperandSize.kNone
    | OperandType.kFlag8, _ => OperandSize.kByte
    | _, OperandScale.kSingle => OperandSize.kByte
    | _, OperandScale.kDouble => OperandSize.kShort
    | _, OperandScale.kQuad => OperandSize.kQuad
  registerFromOperand := fun v => -v
  registerToString := fun r _ => "r" ++ toString r

/-- A concrete metadata table whose opcode 0 declares two register-pair
operands (byte-wide, at offsets 1 and 2), exercising the `range`
accumulator across more than one pair operand. -/
def pairBytecodes : Bytecodes where
  isPrefixScalingBytecode := fun _ => false
  prefixBytecodeToOperandScale := fun _ => OperandScale.kSingle
  size := fun _ _ => 3
  numberOfOperands := fun _ => 2
  getOperandType := fun _ _ => OperandType.kRegPair
  toString := fun _ _ => "TestPairPair"
  getOperandOffset := fun _ i _ => 1 + i
  isDebugBreak := fun _ => false
  sizeOfOperand := fun _ _ => OperandSize.kByte
  registerFromOperand := fun v => v
  registerToString := fun r _ => "r" ++ toString r

/-! ### Helper lemmas -/

lemma DecodeSignedOperand_isSome (m : Bytecodes) (buf : Nat → Nat) (st : Nat)
    (t : OperandType) (s : OperandScale) (h : m.sizeOfOperand t s ≠ OperandSize.kNone) :
    (DecodeSignedOperand m buf st t s).isSome = true := by
  unfold DecodeSignedOperand
  cases hs : m.sizeOfOperand t s <;> simp_all

lemma DecodeUnsignedOperand_isSome (m : Bytecodes) (buf : Nat → Nat) (st : Nat)
    (t : OperandType) (s : OperandScale) (h : m.sizeOfOperand t s ≠ OperandSize.kNone) :
    (DecodeUnsignedOperand m buf st t s).isSome = true := by
  unfold DecodeUnsignedOperand
  cases hs : m.sizeOfOperand t s <;> simp_all

lemma DecodeRegisterOperand_isSome (m : Bytecodes) (buf : Nat → Nat) (st : Nat)
    (t : OperandType) (s : OperandScale) (h : m.sizeOfOperand t s ≠ OperandSize.kNone) :
    (DecodeRegisterOperand m buf st t s).isSome = true := by
  unfold DecodeRegisterOperand
  simp [Option.isSome_map, DecodeSignedOperand_isSome m buf st t s h]

lemma renderOperand_isSome (m : Bytecodes) (buf : Nat → Nat) (pc pre : Nat)
    (sc : OperandScale) (bc : Nat) (f : FmtState) (i r : Nat)
    (h1 : m.getOperandType bc i ≠ OperandType.kNone)
    (h2 : m.sizeOfOperand (m.getOperandType bc i) sc ≠ OperandSize.kNone) :
    (renderOperand m buf pc pre sc bc f i r).isSome = true := by
  unfold renderOperand regRange
  cases ht : m.getOperandType bc i <;>
    rw [ht] at h2 <;>
    simp [Option.isSome_map, DecodeSignedOperand_isSome _ _ _ _ _ h2,
      DecodeUnsignedOperand_isSome _ _ _ _ _ h2,
      DecodeRegisterOperand_isSome _ _ _ _ _ h2]
  exact h1 ht

lemma renderOperand_snd (m : Bytecodes) (buf : Nat → Nat) (pc pre : Nat)
    (sc : OperandScale) (bc : Nat) (f : FmtState) (i r : Nat)
    (s : String) (r1 : Nat)
    (h : renderOperand m buf pc pre sc bc f i r = some (s, r1)) :
    r1 = r + rangeIncr (m.getOperandType bc i) := by
  unfold renderOperand regRange at h
  cases ht : m.getOperandType bc i <;> rw [ht] at h <;>
    simp only [Option.map_eq_some'] at h <;>
    first
    | (obtain ⟨v, -, hv⟩ := h
       simp only [Prod.mk.injEq] at hv
       simp [rangeIncr, ← hv.2])
    | simp_all [rangeIncr]

lemma renderOperand_hash (m : Bytecodes) (buf : Nat → Nat) (pc pre : Nat)
    (sc : OperandScale) (bc : Nat) (f : FmtState) (i r : Nat)
    (ht : m.getOperandType bc i = OperandType.kRegCount ∨
      m.getOperandType bc i = OperandType.kFlag8)
    (h2 : m.sizeOfOperand (m.getOperandType bc i) sc ≠ OperandSize.kNone) :
    ∃ v, DecodeUnsignedOperand m buf (pre + m.getOperandOffset bc i sc)
        (m.getOperandType bc i) sc = some v ∧
      renderOperand m buf pc pre sc bc f i r = some ("#" ++ fmtNat f 0 v, r) := by
  have hs := DecodeUnsignedOperand_isSome m buf (pre + m.getOperandOffset bc i sc)
    (m.getOperandType bc i) sc h2
  obtain ⟨v, hv⟩ := Option.isSome_iff_exists.mp hs
  refine ⟨v, hv, ?_⟩
  unfold renderOperand
  rcases ht with ht | ht <;> rw [ht] <;> rw [ht] at hv <;> simp [hv]

lemma renderOperand_bracket_unsigned (m : Bytecodes) (buf : Nat → Nat) (pc pre : Nat)
    (sc : OperandScale) (bc : Nat) (f : FmtState) (i r : Nat)
    (ht : m.getOperandType bc i = OperandType.kIdx ∨
      m.getOperandType bc i = OperandType.kRuntimeId ∨
      m.getOperandType bc i = OperandType.kIntrinsicId)
    (h2 : m.sizeOfOperand (m.getOperandType bc i) sc ≠ OperandSize.kNone) :
    ∃ v, DecodeUnsignedOperand m buf (pre + m.getOperandOffset bc i sc)
        (m.getOperandType bc i) sc = some v ∧
      renderOperand m buf pc pre sc bc f i r = some ("[" ++ fmtNat f 0 v ++ "]", r) := by
  have hs := DecodeUnsignedOperand_isSome m buf (pre + m.getOperandOffset bc i sc)
    (m.getOperandType bc i) sc h2
  obtain ⟨v, hv⟩ := Option.isSome_iff_exists.mp hs
  refine ⟨v, hv, ?_⟩
  unfold renderOperand
  rcases ht with ht | ht | ht <;> rw [ht] <;> rw [ht] at hv <;> simp [hv]

lemma renderOperand_imm (m : Bytecodes) (buf : Nat → Nat) (pc pre : Nat)
    (sc : OperandScale) (bc : Nat) (f : FmtState) (i r : Nat)
    (ht : m.getOperandType bc i = OperandType.kImm)
    (h2 : m.sizeOfOperand (m.getOperandType bc i) sc ≠ OperandSize.kNone) :
    ∃ v, DecodeSignedOperand m buf (pre + m.getOperandOffset bc i sc)
        (m.getOperandType bc i) sc = some v ∧
      renderOperand m buf pc pre sc bc f i r = some ("[" ++ fmtInt f 0 v ++ "]", r) := by
  have hs := DecodeSignedOperand_isSome m buf (pre + m.getOperandOffset bc i sc)
    (m.getOperandType bc i) sc h2
  obtain ⟨v, hv⟩ := Option.isSome_iff_exists.mp hs
  refine ⟨v, hv, ?_⟩
  unfold renderOperand
  rw [ht]; rw [ht] at hv; simp [hv]

lemma renderOperand_reg (m : Bytecodes) (buf : Nat → Nat) (pc pre : Nat)
    (sc : OperandScale) (bc : Nat) (f : FmtState) (i r : Nat)
    (ht : m.getOperandType bc i = OperandType.kReg ∨
      m.getOperandType bc i = OperandType.kRegOut ∨
      m.getOperandType bc i = OperandType.kMaybeReg)
    (h2 : m.sizeOfOperand (m.getOperandType bc i) sc ≠ OperandSize.kNone) :
    ∃ reg, DecodeRegisterOperand m buf (pre + m.getOperandOffset bc i sc)
        (m.getOperandType bc i) sc = some reg ∧
      renderOperand m buf pc pre sc bc f i r = some (m.registerToString reg pc, r) := by
  have hs := DecodeRegisterOperand_isSome m buf (pre + m.getOperandOffset bc i sc)
    (m.getOperandType bc i) sc h2
  obtain ⟨v, hv⟩ := Option.isSome_iff_exists.mp hs
  refine ⟨v, hv, ?_⟩
  unfold renderOperand
  rcases ht with ht | ht | ht <;> rw [ht] <;> rw [ht] at hv <;> simp [hv]

lemma renderOperand_pair (m : Bytecodes) (buf : Nat → Nat) (pc pre : Nat)
    (sc : OperandScale) (bc : Nat) (f : FmtState) (i r : Nat)
    (ht : m.getOperandType bc i = OperandType.kRegPair ∨
      m.getOperandType bc i = OperandType.kRegOutPair)
    (h2 : m.sizeOfOperand (m.getOperandType bc i) sc ≠ OperandSize.kNone) :
    ∃ first_reg, DecodeRegisterOperand m buf (pre + m.getOperandOffset bc i sc)
        (m.getOperandType bc i) sc = some first_reg ∧
      renderOperand m buf pc pre sc bc f i r =
        some (m.registerToString first_reg pc ++ "-" ++
          m.registerToString (first_reg + ((r + 1 : Nat) : Int)) pc, r + 1) := by
  have hs := DecodeRegisterOperand_isSome m buf (pre + m.getOperandOffset bc i sc)
    (m.getOperandType bc i) sc h2
  obtain ⟨v, hv⟩ := Option.isSome_iff_exists.mp hs
  refine ⟨v, hv, ?_⟩
  unfold renderOperand regRange
  rcases ht with ht | ht <;> rw [ht] <;> rw [ht] at hv <;> simp [hv]

lemma renderOperand_triple (m : Bytecodes) (buf : Nat → Nat) (pc pre : Nat)
    (sc : OperandScale) (bc : Nat) (f : FmtState) (i r : Nat)
    (ht : m.getOperandType bc i = OperandType.kRegOutTriple)
    (h2 : m.sizeOfOperand (m.getOperandType bc i) sc ≠ OperandSize.kNone) :
    ∃ first_reg, DecodeRegisterOperand m buf (pre + m.getOperandOffset bc i sc)
        (m.getOperandType bc i) sc = some first_reg ∧
      renderOperand m buf pc pre sc bc f i r =
        some (m.registerToString first_reg pc ++ "-" ++
          m.registerToString (first_reg + ((r + 2 : Nat) : Int)) pc, r + 2) := by
  have hs := DecodeRegisterOperand_isSome m buf (pre + m.getOperandOffset bc i sc)
    (m.getOperandType bc i) sc h2
  obtain ⟨v, hv⟩ := Option.isSome_iff_exists.mp hs
  refine ⟨v, hv, ?_⟩
  unfold renderOperand regRange
  rw [ht]; rw [ht] at hv; simp [hv]

lemma fragText_of_renderOperand (m : Bytecodes) (buf : Nat → Nat) (pc pre : Nat)
    (sc : OperandScale) (bc : Nat) (f : FmtState) (i r : Nat) (s : String) (r1 : Nat)
    (h : renderOperand m buf pc pre sc bc f i r = some (s, r1)) :
    fragText m buf pc pre sc bc f i r = s := by
  simp [fragText, h]

lemma fragsFrom_length (m : Bytecodes) (buf : Nat → Nat) (pc pre : Nat)
    (sc : OperandScale) (bc : Nat) (f : FmtState) :
    ∀ (idxs : List Nat) (r : Nat) (F : List String),
      fragsFrom m buf pc pre sc bc f idxs r = some F → F.length = idxs.length := by
  intro idxs
  induction idxs with
  | nil => intro r F h; simp [fragsFrom] at h; simp [← h]
  | cons i rest ih =>
    intro r F h
    unfold fragsFrom at h
    cases hr : renderOperand m buf pc pre sc bc f i r with
    | none => rw [hr] at h; simp at h
    | some p =>
      rw [hr] at h
      obtain ⟨s, r1⟩ := p
      simp only [Option.map_eq_some'] at h
      obtain ⟨L, hL, hF⟩ := h
      simp [← hF, ih r1 L hL]

lemma renderOperands_eq_fragsFrom (m : Bytecodes) (buf : Nat → Nat) (pc pre : Nat)
    (sc : OperandScale) (bc : Nat) (f : FmtState) :
    ∀ (idxs : List Nat) (r : Nat),
      renderOperands m buf pc pre sc bc f idxs r =
        (fragsFrom m buf pc pre sc bc f idxs r).map (joinSep (", ")) := by
  intro idxs
  induction idxs with
  | nil => intro r; simp [renderOperands, fragsFrom, joinSep]
  | cons i rest ih =>
    intro r
    unfold renderOperands fragsFrom
    cases hr : renderOperand m buf pc pre sc bc f i r with
    | none => simp
    | some p =>
      obtain ⟨s, r1⟩ := p
      dsimp only
      rw [ih r1]
      cases hL : fragsFrom m buf pc pre sc bc f rest r1 with
      | none => simp
      | some L =>
        cases rest with
        | nil =>
          have : L = [] := by simpa using fragsFrom_length m buf pc pre sc bc f [] r1 L hL
          simp [this, joinSep]
        | cons j rest1 =>
          have hlen : L.length = rest1.length + 1 :=
            fragsFrom_length m buf pc pre sc bc f (j :: rest1) r1 L hL
          cases L with
          | nil => simp at hlen
          | cons a L1 => simp [joinSep, String.append_assoc]

lemma fragsFrom_spec (m : Bytecodes) (buf : Nat → Nat) (pc pre : Nat)
    (sc : OperandScale) (bc : Nat) (f : FmtState) :
    ∀ (idxs : List Nat) (r : Nat),
      (∀ i ∈ idxs, m.getOperandType bc i ≠ OperandType.kNone ∧
        m.sizeOfOperand (m.getOperandType bc i) sc ≠ OperandSize.kNone) →
      ∃ F, fragsFrom m buf pc pre sc bc f idxs r = some F ∧
        F.length = idxs.length ∧
        ∀ j, j < idxs.length →
          F.getD j ("") =
            fragText m buf pc pre sc bc f (idxs.getD j 0)
              (r + incrSum m bc (idxs.take j)) := by
  intro idxs
  induction idxs with
  | nil => intro r _; exact ⟨[], rfl, rfl, by intro j hj; simp at hj⟩
  | cons i rest ih =>
    intro r hok
    have hi := hok i (by simp)
    have hs := renderOperand_isSome m buf pc pre sc bc f i r hi.1 hi.2
    obtain ⟨p, hp⟩ := Option.isSome_iff_exists.mp hs
    obtain ⟨s, r1⟩ := p
    have hr1 : r1 = r + rangeIncr (m.getOperandType bc i) :=
      renderOperand_snd m buf pc pre sc bc f i r s r1 hp
    obtain ⟨F1, hF1, hlen1, hidx1⟩ := ih r1 (fun j hj => hok j (by simp [hj]))
    refine ⟨s :: F1, ?_, by simp [hlen1], ?_⟩
    · unfold fragsFrom
      rw [hp]
      dsimp only
      rw [hF1]
      rfl
    · intro j hj
      cases j with
      | zero =>
        simp [incrSum, fragText_of_renderOperand m buf pc pre sc bc f i r s r1 hp]
      | succ j1 =>
        have hj1 : j1 < rest.length := by simpa using hj
        have := hidx1 j1 hj1
        simp only [List.getD_cons_succ, List.take_succ_cons]
        rw [this, hr1]
        have : incrSum m bc (i :: rest.take j1) =
            rangeIncr (m.getOperandType bc i) + incrSum m bc (rest.take j1) := by
          simp [incrSum]
        rw [this]
        ring_nf

lemma decode_eq (m : Bytecodes) (buf : Nat → Nat) (pc : Nat) (os : OStream) :
    Decode m buf pc os =
      if m.isDebugBreak (resolveHeader m buf).2.2 then
        some { text := os.text ++ headerText m buf, fmt := defaultFmt }
      else
        match renderOperands m buf pc (resolveHeader m buf).1 (resolveHeader m buf).2.1
            (resolveHeader m buf).2.2 defaultFmt
            (List.range (m.numberOfOperands (resolveHeader m buf).2.2)) 0 with
        | none => none
        | some t =>
          some { text := os.text ++ (headerText m buf ++ t), fmt := defaultFmt } := by
  unfold Decode headerText consumedBytes
  cases hdb : m.isDebugBreak (resolveHeader m buf).2.2 <;>
    simp only [hdb, Bool.false_eq_true, if_false, if_true]
  · cases hr : renderOperands m buf pc (resolveHeader m buf).1 (resolveHeader m buf).2.1
        (resolveHeader m buf).2.2 defaultFmt
        (List.range (m.numberOfOperands (resolveHeader m buf).2.2)) 0 <;>
      simp [hr, String.append_assoc]
  · simp [String.append_assoc]

lemma decode_frags (m : Bytecodes) (buf : Nat → Nat) (pc : Nat) (os : OStream)
    (hdb : m.isDebugBreak (resolveHeader m buf).2.2 = false)
    (hty : ∀ i, i < m.numberOfOperands (resolveHeader m buf).2.2 →
      m.getOperandType (resolveHeader m buf).2.2 i ≠ OperandType.kNone)
    (hsz : ∀ i, i < m.numberOfOperands (resolveHeader m buf).2.2 →
      m.sizeOfOperand (m.getOperandType (resolveHeader m buf).2.2 i)
        (resolveHeader m buf).2.1 ≠ OperandSize.kNone) :
    ∃ F, fragsFrom m buf pc (resolveHeader m buf).1 (resolveHeader m buf).2.1
        (resolveHeader m buf).2.2 defaultFmt
        (List.range (m.numberOfOperands (resolveHeader m buf).2.2)) 0 = some F ∧
      Decode m buf pc os =
        some { text := os.text ++ (headerText m buf ++ joinSep (", ") F),
               fmt := defaultFmt } ∧
      F.length = m.numberOfOperands (resolveHeader m buf).2.2 ∧
      ∀ i, i < m.numberOfOperands (resolveHeader m buf).2.2 →
        F.getD i ("") = fragText m buf pc (resolveHeader m buf).1 (resolveHeader m buf).2.1
          (resolveHeader m buf).2.2 defaultFmt i
          (rangeBefore m (resolveHeader m buf).2.2 i) := by
  obtain ⟨F, hF, hlen, hidx⟩ := fragsFrom_spec m buf pc (resolveHeader m buf).1
    (resolveHeader m buf).2.1 (resolveHeader m buf).2.2 defaultFmt
    (List.range (m.numberOfOperands (resolveHeader m buf).2.2)) 0
    (fun i hi => ⟨hty i (List.mem_range.mp hi), hsz i (List.mem_range.mp hi)⟩)
  refine ⟨F, hF, ?_, by simpa using hlen, ?_⟩
  · rw [decode_eq, hdb]
    simp only [Bool.false_eq_true, if_false]
    rw [renderOperands_eq_fragsFrom, hF]
    rfl
  · intro i hi
    have := hidx i (by simpa using hi)
    rw [this]
    have hmin : min i (m.numberOfOperands (resolveHeader m buf).2.2) = i :=
      Nat.min_eq_left (Nat.le_of_lt hi)
    congr 1
    · show (List.range (m.numberOfOperands (resolveHeader m buf).2.2)).getD i 0 = i
      simp [List.getD, List.getElem?_range hi]
    · show 0 + incrSum m (resolveHeader m buf).2.2
          (List.take i (List.range (m.numberOfOperands (resolveHeader m buf).2.2))) =
        rangeBefore m (resolveHeader m buf).2.2 i
      rw [Nat.zero_add, rangeBefore, List.take_range, hmin]

set_option maxRecDepth 4000 in
lemma fmtNat_hex2_length : ∀ b, b < 256 → (fmtNat hexFmt 2 b).length = 2 := by
  decide

lemma hexText_length (buf : Nat → Nat) : ∀ k, (hexText hexFmt buf k).length = 3 * k := by
  intro k
  induction k with
  | zero => rfl
  | succ k ih =>
    show (hexText hexFmt buf k ++ (fmtNat hexFmt 2 (buf k % 256) ++ " ")).length = 3 * (k + 1)
    rw [String.length_append, String.length_append, ih,
      fmtNat_hex2_length _ (Nat.mod_lt _ (by norm_num))]
    have hsp : (" " : String).length = 1 := rfl
    rw [hsp]
    omega

lemma padGo_spaces : ∀ n, padGo n = String.mk (List.replicate (n * 3) ' ') := by
  intro n
  induction n with
  | zero => rfl
  | succ n ih =>
    show "   " ++ padGo n = String.mk (List.replicate ((n + 1) * 3) ' ')
    rw [ih]
    show String.mk ([' ', ' ', ' '] ++ List.replicate (n * 3) ' ') = _
    have : (n + 1) * 3 = 3 + n * 3 := by omega
    rw [this, List.replicate_add]
    rfl

lemma padGo_length (n : Nat) : (padGo n).length = n * 3 := by
  rw [padGo_spaces]
  simp

lemma decode_text_decomp (m : Bytecodes) (buf : Nat → Nat) (pc : Nat)
    (os os1 : OStream) (h : Decode m buf pc os = some os1) :
    ∃ rest, os1.text = os.text ++ (hexText hexFmt buf (consumedBytes m buf) ++
      (padLoop (consumedBytes m buf) ++ rest)) := by
  rw [decode_eq] at h
  split at h
  · refine ⟨m.toString (resolveHeader m buf).2.2 (resolveHeader m buf).2.1 ++ " ", ?_⟩
    rw [← Option.some.inj h]
    simp [headerText, String.append_assoc]
  · split at h
    · exact absurd h (by simp)
    · rename_i t ht
      refine ⟨(m.toString (resolveHeader m buf).2.2 (resolveHeader m buf).2.1 ++ " ") ++ t, ?_⟩
      rw [← Option.some.inj h]
      simp [headerText, String.append_assoc]

/-! ### Claims -/

/-- C1: the claim says the caller's ambient numeric-formatting state (fill
character, number base flags) on the stream is the same after a `Decode`
call as before it.  The code violates this: line 76
`saved_format.copyfmt(saved_format)` copies the default-constructed format
from itself instead of saving `os`'s format, so line 84
`os.copyfmt(saved_format)` installs the *default* format (fill space,
decimal) on every successful call.  Part one proves the stream's format
after any successful call is `defaultFmt`, whatever it was before; part
two evaluates the decoder at a failing input (caller fill `*`, hex base)
and shows the caller's format is not restored. -/
theorem c1_ambient_format_clobbered :
    (∀ (m : Bytecodes) (buf : Nat → Nat) (pc : Nat) (os os1 : OStream),
      Decode m buf pc os = some os1 → os1.fmt = defaultFmt) ∧
    Decode sampleBytecodes (listBuf [2, 128]) 0
        { text := "", fmt := { fill := '*', basefield := Base.hex } } =
      some { text := "02 80             LdaSmi [-128]", fmt := defaultFmt } ∧
    ({ fill := '*', basefield := Base.hex } : FmtState) ≠ defaultFmt := by
  refine ⟨?_, by rfl, by decide⟩
  intro m buf pc os os1 h
  rw [decode_eq] at h
  split at h
  · rw [← Option.some.inj h]
  · split at h
    · exact absurd h (by simp)
    · rw [← Option.some.inj h]

/-- Witness for C1: the general part applied at a concrete call whose
incoming format is fill `*` with hex base. -/
theorem c1_witness :
    OStream.fmt { text := "02 80             LdaSmi [-128]", fmt := defaultFmt } =
      defaultFmt :=
  c1_ambient_format_clobbered.1 sampleBytecodes (listBuf [2, 128]) 0
    { text := "", fmt := { fill := '*', basefield := Base.hex } }
    { text := "02 80             LdaSmi [-128]", fmt := defaultFmt } (by rfl)

/-- C2 counterexample: `pairBytecodes` declares opcode 0 with *two*
register-pair operands.  The second pair operand's decoded first register
is r0, so the claim requires it to render as `r0-r1`
(`last.index = first.index + 1`), but the `range` accumulator (declared
outside the operand loop and never reset) makes it render `r0-r2`. -/
theorem c2_counterexample :
    pairBytecodes.getOperandType 0 1 = OperandType.kRegPair ∧
    DecodeRegisterOperand pairBytecodes (listBuf [0, 0, 0]) 2 OperandType.kRegPair
      OperandScale.kSingle = some 0 ∧
    pairBytecodes.registerToString 0 0 ++ "-" ++ pairBytecodes.registerToString (0 + 1) 0 =
      "r0-r1" ∧
    Decode pairBytecodes (listBuf [0, 0, 0]) 0 { text := "", fmt := defaultFmt } =
      some { text := "00 00 00          TestPairPair r0-r1, r0-r2", fmt := defaultFmt } ∧
    ("00 00 00          TestPairPair r0-r1, r0-r2" : String) ≠
      "00 00 00          TestPairPair r0-r1, r0-r1" := by
  exact ⟨rfl, rfl, rfl, by rfl, by decide⟩

/-- C2 (amended): a register-pair operand renders `first-last` with
`last.index = first.index + (R + 1)` and a register-triple with
`last.index = first.index + (R + 2)`, where `R` (`rangeBefore`) is the sum
of the range lengths of all *earlier* pair/triple operands of the same
instruction — the `range` accumulator is never reset within one call.  In
particular, for the first pair/triple operand of an instruction (R = 0)
the original claim's `+1` / `+2` rendering holds. -/
theorem c2_register_range_accumulation (m : Bytecodes) (buf : Nat → Nat)
    (pc : Nat) (os : OStream)
    (hdb : m.isDebugBreak (resolveHeader m buf).2.2 = false)
    (hty : ∀ i, i < m.numberOfOperands (resolveHeader m buf).2.2 →
      m.getOperandType (resolveHeader m buf).2.2 i ≠ OperandType.kNone)
    (hsz : ∀ i, i < m.numberOfOperands (resolveHeader m buf).2.2 →
      m.sizeOfOperand (m.getOperandType (resolveHeader m buf).2.2 i)
        (resolveHeader m buf).2.1 ≠ OperandSize.kNone) :
    ∃ F, fragsFrom m buf pc (resolveHeader m buf).1 (resolveHeader m buf).2.1
        (resolveHeader m buf).2.2 defaultFmt
        (List.range (m.numberOfOperands (resolveHeader m buf).2.2)) 0 = some F ∧
      Decode m buf pc os =
        some { text := os.text ++ (headerText m buf ++ joinSep (", ") F),
               fmt := defaultFmt } ∧
      F.length = m.numberOfOperands (resolveHeader m buf).2.2 ∧
      ∀ i, i < m.numberOfOperands (resolveHeader m buf).2.2 →
        ((m.getOperandType (resolveHeader m buf).2.2 i = OperandType.kRegPair ∨
          m.getOperandType (resolveHeader m buf).2.2 i = OperandType.kRegOutPair) →
          ∃ first_reg,
            DecodeRegisterOperand m buf
              ((resolveHeader m buf).1 +
                m.getOperandOffset (resolveHeader m buf).2.2 i (resolveHeader m buf).2.1)
              (m.getOperandType (resolveHeader m buf).2.2 i)
              (resolveHeader m buf).2.1 = some first_reg ∧
            F.getD i ("") = m.registerToString first_reg pc ++ "-" ++
              m.registerToString
                (first_reg + ((rangeBefore m (resolveHeader m buf).2.2 i + 1 : Nat) : Int))
                pc) ∧
        (m.getOperandType (resolveHeader m buf).2.2 i = OperandType.kRegOutTriple →
          ∃ first_reg,
            DecodeRegisterOperand m buf
              ((resolveHeader m buf).1 +
                m.getOperandOffset (resolveHeader m buf).2.2 i (resolveHeader m buf).2.1)
              (m.getOperandType (resolveHeader m buf).2.2 i)
              (resolveHeader m buf).2.1 = some first_reg ∧
            F.getD i ("") = m.registerToString first_reg pc ++ "-" ++
              m.registerToString
                (first_reg + ((rangeBefore m (resolveHeader m buf).2.2 i + 2 : Nat) : Int))
                pc) := by
  obtain ⟨F, hF, hdec, hlen, hidx⟩ := decode_frags m buf pc os hdb hty hsz
  refine ⟨F, hF, hdec, hlen, ?_⟩
  intro i hi
  constructor
  · intro htp
    obtain ⟨fr, hfr, hro⟩ := renderOperand_pair m buf pc (resolveHeader m buf).1
      (resolveHeader m buf).2.1 (resolveHeader m buf).2.2 defaultFmt i
      (rangeBefore m (resolveHeader m buf).2.2 i) htp (hsz i hi)
    exact ⟨fr, hfr, by
        rw [hidx i hi, fragText_of_renderOperand m buf pc (resolveHeader m buf).1
          (resolveHeader m buf).2.1 (resolveHeader m buf).2.2 defaultFmt i
          (rangeBefore m (resolveHeader m buf).2.2 i) _ _ hro]⟩
  · intro htp
    obtain ⟨fr, hfr, hro⟩ := renderOperand_triple m buf pc (resolveHeader m buf).1
      (resolveHeader m buf).2.1 (resolveHeader m buf).2.2 defaultFmt i
      (rangeBefore m (resolveHeader m buf).2.2 i) htp (hsz i hi)
    exact ⟨fr, hfr, by
      rw [hidx i hi, fragText_of_renderOperand m buf pc (resolveHeader m buf).1
        (resolveHeader m buf).2.1 (resolveHeader m buf).2.2 defaultFmt i
        (rangeBefore m (resolveHeader m buf).2.2 i) _ _ hro]⟩

/-- Witness for C2 (amended): the two-pair instruction of
`pairBytecodes`, where the amended ranges are r0-r1 then r0-r2. -/
theorem c2_amended_witness :
    Decode pairBytecodes (listBuf [0, 0, 0]) 0 { text := "", fmt := defaultFmt } =
      some { text := "00 00 00          TestPairPair r0-r1, r0-r2",
             fmt := defaultFmt } := by
  obtain ⟨F, hF, hdec, -, -⟩ := c2_register_range_accumulation pairBytecodes
    (listBuf [0, 0, 0]) 0 { text := "", fmt := defaultFmt } (by rfl) (by decide)
    (by decide)
  have hF2 : F = ["r0-r1", "r0-r2"] := by
    have h2 : fragsFrom pairBytecodes (listBuf [0, 0, 0]) 0
        (resolveHeader pairBytecodes (listBuf [0, 0, 0])).1
        (resolveHeader pairBytecodes (listBuf [0, 0, 0])).2.1
        (resolveHeader pairBytecodes (listBuf [0, 0, 0])).2.2 defaultFmt
        (List.range (pairBytecodes.numberOfOperands
          (resolveHeader pairBytecodes (listBuf [0, 0, 0])).2.2)) 0 =
        some ["r0-r1", "r0-r2"] := by rfl
    rw [hF] at h2
    exact Option.some.inj h2
  rw [hdec, hF2]
  rfl

/-- C4: when metadata marks the resolved opcode as a debug-break marker,
`Decode` emits only the hex bytes, the padding and the mnemonic followed
by one space (`headerText`), and returns — no operand text, regardless of
the opcode's declared operand count (the conclusion does not depend on
`numberOfOperands`). -/
theorem c4_debug_break_short_circuit (m : Bytecodes) (buf : Nat → Nat)
    (pc : Nat) (os : OStream)
    (hdb : m.isDebugBreak (resolveHeader m buf).2.2 = true) :
    Decode m buf pc os =
      some { text := os.text ++ headerText m buf, fmt := defaultFmt } := by
  rw [decode_eq, hdb]
  simp

/-- Witness for C4: opcode 3 of `sampleBytecodes` is a debug-break marker
that *declares* two operands, yet the output stops after the mnemonic. -/
theorem c4_witness :
    sampleBytecodes.numberOfOperands
      (resolveHeader sampleBytecodes (listBuf [3, 9, 9])).2.2 = 2 ∧
    Decode sampleBytecodes (listBuf [3, 9, 9]) 0 { text := "", fmt := defaultFmt } =
      some { text := "03                DebugBreak1 ", fmt := defaultFmt } :=
  ⟨by rfl, c4_debug_break_short_circuit sampleBytecodes (listBuf [3, 9, 9]) 0
    { text := "", fmt := defaultFmt } (by rfl)⟩

/-- C7: `Decode` is deterministic — its outcome factors through
`DecodeText`, a function of the metadata, the buffer and the parameter
count alone.  Two calls on the same buffer with the same parameter count
(and the same metadata answers) append the identical text and reach the
identical final format, whatever stream state each call starts from; the
bytes-consumed figure `consumedBytes` is likewise a pure function of the
same inputs. -/
theorem c7_deterministic (m : Bytecodes) (buf : Nat → Nat) (pc : Nat)
    (os : OStream) :
    Decode m buf pc os =
      (DecodeText m buf pc).map (fun t => { text := os.text ++ t, fmt := defaultFmt }) := by
  unfold DecodeText
  rw [decode_eq m buf pc os, decode_eq m buf pc { text := "", fmt := defaultFmt }]
  cases hdb : m.isDebugBreak (resolveHeader m buf).2.2 <;>
    simp only [hdb, Bool.false_eq_true, if_false, if_true]
  · cases hr : renderOperands m buf pc (resolveHeader m buf).1 (resolveHeader m buf).2.1
        (resolveHeader m buf).2.2 defaultFmt
        (List.range (m.numberOfOperands (resolveHeader m buf).2.2)) 0 <;>
      simp [hr]
  · simp

lemma toSigned8_eq (n : Nat) :
    toSigned 8 n = if n < 128 then (n : Int) else (n : Int) - 256 := by
  norm_num [toSigned]

lemma toSigned16_eq (n : Nat) :
    toSigned 16 n = if n < 32768 then (n : Int) else (n : Int) - 65536 := by
  norm_num [toSigned]

lemma toSigned32_eq (n : Nat) :
    toSigned 32 n = if n < 2147483648 then (n : Int) else (n : Int) - 4294967296 := by
  norm_num [toSigned]

/-- C3: scale-prefix resolution and byte accounting.  When the first byte
is a scale prefix, the scale is the one the prefix denotes, the opcode is
re-resolved from the second byte, and the call accounts for exactly
`1 + Size(opcode, scale)` bytes; otherwise the scale is Single, the prefix
length 0 and the count `Size(opcode, Single)`.  Every successful call's
output starts with the `consumedBytes` two-digit hex groups (each group
exactly two hex digits plus one space, 3 characters per group/consumed
byte). -/
theorem c3_scale_prefix_accounting (m : Bytecodes) (buf : Nat → Nat) (pc : Nat)
    (os : OStream) :
    (m.isPrefixScalingBytecode (buf 0 % 256) = true →
      resolveHeader m buf =
        (1, m.prefixBytecodeToOperandScale (buf 0 % 256), buf 1 % 256) ∧
      consumedBytes m buf =
        1 + m.size (buf 1 % 256) (m.prefixBytecodeToOperandScale (buf 0 % 256))) ∧
    (m.isPrefixScalingBytecode (buf 0 % 256) = false →
      resolveHeader m buf = (0, OperandScale.kSingle, buf 0 % 256) ∧
      consumedBytes m buf = m.size (buf 0 % 256) OperandScale.kSingle) ∧
    (∀ os1, Decode m buf pc os = some os1 →
      ∃ rest, os1.text = os.text ++
        (hexText hexFmt buf (consumedBytes m buf) ++ rest)) ∧
    (hexText hexFmt buf (consumedBytes m buf)).length = 3 * consumedBytes m buf ∧
    (∀ b, b < 256 → (fmtNat hexFmt 2 b).length = 2) := by
  refine ⟨?_, ?_, ?_, hexText_length buf _, fmtNat_hex2_length⟩
  · intro hp
    exact ⟨by simp [resolveHeader, hp], by simp [consumedBytes, resolveHeader, hp]⟩
  · intro hp
    exact ⟨by simp [resolveHeader, hp], by simp [consumedBytes, resolveHeader, hp]⟩
  · intro os1 h
    obtain ⟨rest, hrest⟩ := decode_text_decomp m buf pc os os1 h
    exact ⟨padLoop (consumedBytes m buf) ++ rest, hrest⟩

/-- Witness for C3: a Wide prefix byte (opcode 1, scale ×2) followed by
opcode 2, whose Double-scale size is 3, so 4 bytes are consumed and 4 hex
groups emitted. -/
theorem c3_witness :
    resolveHeader sampleBytecodes (listBuf [1, 2, 5, 0]) =
      (1, OperandScale.kDouble, 2) ∧
    consumedBytes sampleBytecodes (listBuf [1, 2, 5, 0]) = 4 ∧
    ∃ rest, ("01 02 05 00       LdaSmi.Wide [5]" : String) =
      "" ++ (hexText hexFmt (listBuf [1, 2, 5, 0])
        (consumedBytes sampleBytecodes (listBuf [1, 2, 5, 0])) ++ rest) := by
  have h := c3_scale_prefix_accounting sampleBytecodes (listBuf [1, 2, 5, 0]) 0
    { text := "", fmt := defaultFmt }
  have hA := h.1 (by rfl)
  refine ⟨hA.1, hA.2.trans (by rfl), ?_⟩
  obtain ⟨rest, hrest⟩ := h.2.2.1
    { text := "01 02 05 00       LdaSmi.Wide [5]", fmt := defaultFmt } (by rfl)
  exact ⟨rest, hrest⟩

/-- C5: at byte width the signed decoder sign-extends (values below 128
decode to themselves, values from 128 up to value − 256; 0x7F ↦ +127,
0x80 ↦ −128) while the unsigned decoder zero-extends (0x7F ↦ 127,
0x80 ↦ 128); at short width the signed decoder sign-extends the 16-bit
value to 32 bits and the unsigned decoder zero-extends it. -/
theorem c5_sign_extension (m : Bytecodes) (buf : Nat → Nat) (st : Nat)
    (t : OperandType) (s : OperandScale) :
    (m.sizeOfOperand t s = OperandSize.kByte →
      DecodeUnsignedOperand m buf st t s = some (buf st % 256) ∧
      ∃ v, DecodeSignedOperand m buf st t s = some v ∧
        (buf st % 256 < 128 → v = (buf st % 256 : Int)) ∧
        (128 ≤ buf st % 256 → v = (buf st % 256 : Int) - 256) ∧
        (buf st % 256 = 127 → v = 127) ∧
        (buf st % 256 = 128 → v = -128)) ∧
    (m.sizeOfOperand t s = OperandSize.kShort →
      DecodeUnsignedOperand m buf st t s = some (readUnalignedUInt16 buf st) ∧
      ∃ v, DecodeSignedOperand m buf st t s = some v ∧
        (readUnalignedUInt16 buf st < 32768 →
          v = (readUnalignedUInt16 buf st : Int)) ∧
        (32768 ≤ readUnalignedUInt16 buf st →
          v = (readUnalignedUInt16 buf st : Int) - 65536)) := by
  constructor
  · intro h
    refine ⟨by unfold DecodeUnsignedOperand; rw [h],
      toSigned 8 (buf st % 256), by unfold DecodeSignedOperand; rw [h],
      ?_, ?_, ?_, ?_⟩
    · intro hlt; rw [toSigned8_eq, if_pos hlt]; omega
    · intro hge; rw [toSigned8_eq, if_neg (by omega)]; omega
    · intro he; rw [toSigned8_eq, he]; decide
    · intro he; rw [toSigned8_eq, he]; decide
  · intro h
    refine ⟨by unfold DecodeUnsignedOperand; rw [h],
      toSigned 16 (readUnalignedUInt16 buf st),
      by unfold DecodeSignedOperand; rw [h], ?_, ?_⟩
    · intro hlt; rw [toSigned16_eq, if_pos hlt]
    · intro hge; rw [toSigned16_eq, if_neg (by omega)]

/-- Witness for C5: bytes 0x7F and 0x80 through both decoders at byte
width. -/
theorem c5_witness :
    DecodeSignedOperand sampleBytecodes (listBuf [127]) 0 OperandType.kImm
      OperandScale.kSingle = some 127 ∧
    DecodeSignedOperand sampleBytecodes (listBuf [128]) 0 OperandType.kImm
      OperandScale.kSingle = some (-128) ∧
    DecodeUnsignedOperand sampleBytecodes (listBuf [127]) 0 OperandType.kIdx
      OperandScale.kSingle = some 127 ∧
    DecodeUnsignedOperand sampleBytecodes (listBuf [128]) 0 OperandType.kIdx
      OperandScale.kSingle = some 128 := by
  have ha := (c5_sign_extension sampleBytecodes (listBuf [127]) 0 OperandType.kImm
    OperandScale.kSingle).1 (by rfl)
  have hb := (c5_sign_extension sampleBytecodes (listBuf [128]) 0 OperandType.kImm
    OperandScale.kSingle).1 (by rfl)
  have hc := (c5_sign_extension sampleBytecodes (listBuf [127]) 0 OperandType.kIdx
    OperandScale.kSingle).1 (by rfl)
  have hd := (c5_sign_extension sampleBytecodes (listBuf [128]) 0 OperandType.kIdx
    OperandScale.kSingle).1 (by rfl)
  refine ⟨?_, ?_, hc.1, hd.1⟩
  · obtain ⟨-, v, hv, -, -, h127, -⟩ := ha
    rw [hv, h127 (by rfl)]
  · obtain ⟨-, v, hv, -, -, -, h128⟩ := hb
    rw [hv, h128 (by rfl)]

/-- C6: under the preconditions that no declared operand position of the
resolved opcode has type "none" and no used (type, scale) pair resolves
to width "none", `Decode` never reaches an `UNREACHABLE` arm (it returns
a value), and the decoder-invocation contracts checked by the `DCHECK`s
hold for every call site: the immediate (signed-path) type is not
unsigned-only, register-category types are never unsigned-only, the types
passed to the register decoder are register-category, and the types
passed to the unsigned decoder are unsigned. -/
theorem c6_assertions_hold (m : Bytecodes) (buf : Nat → Nat) (pc : Nat)
    (os : OStream)
    (hty : ∀ i, i < m.numberOfOperands (resolveHeader m buf).2.2 →
      m.getOperandType (resolveHeader m buf).2.2 i ≠ OperandType.kNone)
    (hsz : ∀ i, i < m.numberOfOperands (resolveHeader m buf).2.2 →
      m.sizeOfOperand (m.getOperandType (resolveHeader m buf).2.2 i)
        (resolveHeader m buf).2.1 ≠ OperandSize.kNone) :
    (Decode m buf pc os).isSome = true ∧
    isUnsignedOperandType OperandType.kImm = false ∧
    (∀ t, isRegisterOperandType t = true → isUnsignedOperandType t = false) ∧
    (isRegisterOperandType OperandType.kReg = true ∧
      isRegisterOperandType OperandType.kRegOut = true ∧
      isRegisterOperandType OperandType.kMaybeReg = true ∧
      isRegisterOperandType OperandType.kRegPair = true ∧
      isRegisterOperandType OperandType.kRegOutPair = true ∧
      isRegisterOperandType OperandType.kRegOutTriple = true) ∧
    (isUnsignedOperandType OperandType.kRegCount = true ∧
      isUnsignedOperandType OperandType.kIdx = true ∧
      isUnsignedOperandType OperandType.kRuntimeId = true ∧
      isUnsignedOperandType OperandType.kIntrinsicId = true ∧
      isUnsignedOperandType OperandType.kFlag8 = true) := by
  refine ⟨?_, rfl, ?_, by decide, by decide⟩
  · cases hdb : m.isDebugBreak (resolveHeader m buf).2.2
    · obtain ⟨F, hF, hdec, -, -⟩ := decode_frags m buf pc os hdb hty hsz
      rw [hdec]
      rfl
    · rw [decode_eq, hdb]
      rfl
  · intro t ht
    cases t <;> simp_all [isRegisterOperandType, isUnsignedOperandType]

/-- Witness for C6: a two-operand instruction (index + register) decodes
to a value. -/
theorem c6_witness :
    (Decode sampleBytecodes (listBuf [4, 7, 9]) 0
      { text := "", fmt := defaultFmt }).isSome = true :=
  (c6_assertions_hold sampleBytecodes (listBuf [4, 7, 9]) 0
    { text := "", fmt := defaultFmt } (by decide) (by decide)).1

/-- C8: for a non-debug-break instruction the operands are rendered in
declared order as the fragment list `F`, joined with the literal `", "`
between consecutive operands and none after the last (`joinSep`), appended
after the header; and each fragment has the exact per-category form:
count/flag → `#` + unsigned value, index/runtime-id/intrinsic-id → `[` +
unsigned value + `]`, immediate → `[` + signed value + `]`, and
plain/out/maybe register → the register's text form relative to the
parameter count. -/
theorem c8_operand_rendering (m : Bytecodes) (buf : Nat → Nat) (pc : Nat)
    (os : OStream)
    (hdb : m.isDebugBreak (resolveHeader m buf).2.2 = false)
    (hty : ∀ i, i < m.numberOfOperands (resolveHeader m buf).2.2 →
      m.getOperandType (resolveHeader m buf).2.2 i ≠ OperandType.kNone)
    (hsz : ∀ i, i < m.numberOfOperands (resolveHeader m buf).2.2 →
      m.sizeOfOperand (m.getOperandType (resolveHeader m buf).2.2 i)
        (resolveHeader m buf).2.1 ≠ OperandSize.kNone) :
    ∃ F, fragsFrom m buf pc (resolveHeader m buf).1 (resolveHeader m buf).2.1
        (resolveHeader m buf).2.2 defaultFmt
        (List.range (m.numberOfOperands (resolveHeader m buf).2.2)) 0 = some F ∧
      Decode m buf pc os =
        some { text := os.text ++ (headerText m buf ++ joinSep (", ") F),
               fmt := defaultFmt } ∧
      F.length = m.numberOfOperands (resolveHeader m buf).2.2 ∧
      ∀ i, i < m.numberOfOperands (resolveHeader m buf).2.2 →
        ((m.getOperandType (resolveHeader m buf).2.2 i = OperandType.kRegCount ∨
          m.getOperandType (resolveHeader m buf).2.2 i = OperandType.kFlag8) →
          ∃ v, DecodeUnsignedOperand m buf
              ((resolveHeader m buf).1 +
                m.getOperandOffset (resolveHeader m buf).2.2 i (resolveHeader m buf).2.1)
              (m.getOperandType (resolveHeader m buf).2.2 i)
              (resolveHeader m buf).2.1 = some v ∧
            F.getD i ("") = "#" ++ fmtNat defaultFmt 0 v) ∧
        ((m.getOperandType (resolveHeader m buf).2.2 i = OperandType.kIdx ∨
          m.getOperandType (resolveHeader m buf).2.2 i = OperandType.kRuntimeId ∨
          m.getOperandType (resolveHeader m buf).2.2 i = OperandType.kIntrinsicId) →
          ∃ v, DecodeUnsignedOperand m buf
              ((resolveHeader m buf).1 +
                m.getOperandOffset (resolveHeader m buf).2.2 i (resolveHeader m buf).2.1)
              (m.getOperandType (resolveHeader m buf).2.2 i)
              (resolveHeader m buf).2.1 = some v ∧
            F.getD i ("") = "[" ++ fmtNat defaultFmt 0 v ++ "]") ∧
        (m.getOperandType (resolveHeader m buf).2.2 i = OperandType.kImm →
          ∃ v, DecodeSignedOperand m buf
              ((resolveHeader m buf).1 +
                m.getOperandOffset (resolveHeader m buf).2.2 i (resolveHeader m buf).2.1)
              (m.getOperandType (resolveHeader m buf).2.2 i)
              (resolveHeader m buf).2.1 = some v ∧
            F.getD i ("") = "[" ++ fmtInt defaultFmt 0 v ++ "]") ∧
        ((m.getOperandType (resolveHeader m buf).2.2 i = OperandType.kReg ∨
          m.getOperandType (resolveHeader m buf).2.2 i = OperandType.kRegOut ∨
          m.getOperandType (resolveHeader m buf).2.2 i = OperandType.kMaybeReg) →
          ∃ reg, DecodeRegisterOperand m buf
              ((resolveHeader m buf).1 +
                m.getOperandOffset (resolveHeader m buf).2.2 i (resolveHeader m buf).2.1)
              (m.getOperandType (resolveHeader m buf).2.2 i)
              (resolveHeader m buf).2.1 = some reg ∧
            F.getD i ("") = m.registerToString reg pc) := by
  obtain ⟨F, hF, hdec, hlen, hidx⟩ := decode_frags m buf pc os hdb hty hsz
  refine ⟨F, hF, hdec, hlen, ?_⟩
  intro i hi
  refine ⟨?_, ?_, ?_, ?_⟩
  · intro htp
    obtain ⟨v, hv, hro⟩ := renderOperand_hash m buf pc (resolveHeader m buf).1
      (resolveHeader m buf).2.1 (resolveHeader m buf).2.2 defaultFmt i
      (rangeBefore m (resolveHeader m buf).2.2 i) htp (hsz i hi)
    exact ⟨v, hv, by
      rw [hidx i hi, fragText_of_renderOperand m buf pc (resolveHeader m buf).1
        (resolveHeader m buf).2.1 (resolveHeader m buf).2.2 defaultFmt i
        (rangeBefore m (resolveHeader m buf).2.2 i) _ _ hro]⟩
  · intro htp
    obtain ⟨v, hv, hro⟩ := renderOperand_bracket_unsigned m buf pc (resolveHeader m buf).1
      (resolveHeader m buf).2.1 (resolveHeader m buf).2.2 defaultFmt i
      (rangeBefore m (resolveHeader m buf).2.2 i) htp (hsz i hi)
    exact ⟨v, hv, by
      rw [hidx i hi, fragText_of_renderOperand m buf pc (resolveHeader m buf).1
        (resolveHeader m buf).2.1 (resolveHeader m buf).2.2 defaultFmt i
        (rangeBefore m (resolveHeader m buf).2.2 i) _ _ hro]⟩
  · intro htp
    obtain ⟨v, hv, hro⟩ := renderOperand_imm m buf pc (resolveHeader m buf).1
      (resolveHeader m buf).2.1 (resolveHeader m buf).2.2 defaultFmt i
      (rangeBefore m (resolveHeader m buf).2.2 i) htp (hsz i hi)
    exact ⟨v, hv, by
      rw [hidx i hi, fragText_of_renderOperand m buf pc (resolveHeader m buf).1
        (resolveHeader m buf).2.1 (resolveHeader m buf).2.2 defaultFmt i
        (rangeBefore m (resolveHeader m buf).2.2 i) _ _ hro]⟩
  · intro htp
    obtain ⟨v, hv, hro⟩ := renderOperand_reg m buf pc (resolveHeader m buf).1
      (resolveHeader m buf).2.1 (resolveHeader m buf).2.2 defaultFmt i
      (rangeBefore m (resolveHeader m buf).2.2 i) htp (hsz i hi)
    exact ⟨v, hv, by
      rw [hidx i hi, fragText_of_renderOperand m buf pc (resolveHeader m buf).1
        (resolveHeader m buf).2.1 (resolveHeader m buf).2.2 defaultFmt i
        (rangeBefore m (resolveHeader m buf).2.2 i) _ _ hro]⟩

/-- Witness for C8: opcode 4 (index then register operand), rendering
`[7], r-9` — bracketed unsigned index, register text, one `", "` between
and none after. -/
theorem c8_witness :
    Decode sampleBytecodes (listBuf [4, 7, 9]) 0 { text := "", fmt := defaultFmt } =
      some { text := "04 07 09          LdaGlobal [7], r-9", fmt := defaultFmt } := by
  obtain ⟨F, hF, hdec, -, -⟩ := c8_operand_rendering sampleBytecodes
    (listBuf [4, 7, 9]) 0 { text := "", fmt := defaultFmt } (by rfl) (by decide)
    (by decide)
  have hF2 : F = ["[7]", "r-9"] := by
    have h2 : fragsFrom sampleBytecodes (listBuf [4, 7, 9]) 0
        (resolveHeader sampleBytecodes (listBuf [4, 7, 9])).1
        (resolveHeader sampleBytecodes (listBuf [4, 7, 9])).2.1
        (resolveHeader sampleBytecodes (listBuf [4, 7, 9])).2.2 defaultFmt
        (List.range (sampleBytecodes.numberOfOperands
          (resolveHeader sampleBytecodes (listBuf [4, 7, 9])).2.2)) 0 =
        some ["[7]", "r-9"] := by rfl
    rw [hF] at h2
    exact Option.some.inj h2
  rw [hdec, hF2]
  rfl

/-- C9: after the hex groups, `Decode` emits one literal three-character
blank per group short of the fixed 6-group column: `padLoop k` is exactly
`(6 - k)` (in truncated ℕ subtraction, i.e. `max 0 (6 - k)`) groups of
three spaces, the hex-plus-padding region always spans `3 * max k 6`
characters (so the mnemonic starts at or after the 6-group column), and
every successful call's text begins with hex groups followed by that
padding. -/
theorem c9_column_padding (m : Bytecodes) (buf : Nat → Nat) (pc : Nat)
    (os : OStream) :
    (∀ j, padLoop j = String.mk (List.replicate ((6 - j) * 3) ' ')) ∧
    (∀ (b : Nat → Nat) (k : Nat),
      (hexText hexFmt b k ++ padLoop k).length = 3 * max k 6) ∧
    (∀ os1, Decode m buf pc os = some os1 →
      ∃ rest, os1.text = os.text ++ (hexText hexFmt buf (consumedBytes m buf) ++
        (padLoop (consumedBytes m buf) ++ rest))) := by
  refine ⟨fun j => padGo_spaces (6 - j), ?_, decode_text_decomp m buf pc os⟩
  intro b k
  rw [String.length_append, hexText_length b k, padLoop, padGo_length]
  omega

/-- Witness for C9: a two-byte instruction padded with four blank groups
before the mnemonic. -/
theorem c9_witness :
    ∃ rest, ("02 05             LdaSmi [5]" : String) =
      "" ++ (hexText hexFmt (listBuf [2, 5])
          (consumedBytes sampleBytecodes (listBuf [2, 5])) ++
        (padLoop (consumedBytes sampleBytecodes (listBuf [2, 5])) ++ rest)) := by
  obtain ⟨-, -, hdecomp⟩ := c9_column_padding sampleBytecodes (listBuf [2, 5]) 0
    { text := "", fmt := defaultFmt }
  exact hdecomp { text := "02 05             LdaSmi [5]", fmt := defaultFmt } (by rfl)

/-- C10: at quad width the signed decoder performs no extension: it reads
the same 32-bit value `u` the unsigned decoder reads and reinterprets it
as a two's-complement int32 (`toSigned 32 u`), so both return the same
bit pattern — the signed result is congruent to `u` modulo 2^32, equal to
`u` below 2^31 and to `u - 2^32` from 2^31 up. -/
theorem c10_quad_reinterpret (m : Bytecodes) (buf : Nat → Nat) (st : Nat)
    (t : OperandType) (s : OperandScale)
    (h : m.sizeOfOperand t s = OperandSize.kQuad) :
    ∃ u, DecodeUnsignedOperand m buf st t s = some u ∧ u < 4294967296 ∧
      DecodeSignedOperand m buf st t s = some (toSigned 32 u) ∧
      toSigned 32 u % 4294967296 = (u : Int) ∧
      (u < 2147483648 → toSigned 32 u = (u : Int)) ∧
      (2147483648 ≤ u → toSigned 32 u = (u : Int) - 4294967296) := by
  have h0 : buf st % 256 < 256 := Nat.mod_lt _ (by norm_num)
  have h1 : buf (st + 1) % 256 < 256 := Nat.mod_lt _ (by norm_num)
  have h2 : buf (st + 2) % 256 < 256 := Nat.mod_lt _ (by norm_num)
  have h3 : buf (st + 3) % 256 < 256 := Nat.mod_lt _ (by norm_num)
  have hbound : readUnalignedUInt32 buf st < 4294967296 := by
    unfold readUnalignedUInt32
    omega
  refine ⟨readUnalignedUInt32 buf st,
    by unfold DecodeUnsignedOperand; rw [h], hbound,
    by unfold DecodeSignedOperand; rw [h], ?_, ?_, ?_⟩
  · rw [toSigned32_eq]
    split_ifs with hc
    · exact Int.emod_eq_of_lt (by omega) (by exact_mod_cast hbound)
    · have hsub : ((readUnalignedUInt32 buf st : Int) - 4294967296) =
          (readUnalignedUInt32 buf st : Int) + 4294967296 * (-1) := by ring
      rw [hsub, Int.add_mul_emod_self_left]
      exact Int.emod_eq_of_lt (by omega) (by exact_mod_cast hbound)
  · intro hlt; rw [toSigned32_eq, if_pos hlt]
  · intro hge; rw [toSigned32_eq, if_neg (by omega)]

/-- Witness for C10: the four bytes 0xFF 0xFF 0xFF 0xFF, where the
unsigned decoder reads 4294967295 and the signed decoder returns the same
bit pattern, −1. -/
theorem c10_witness :
    ∃ u, DecodeUnsignedOperand sampleBytecodes (listBuf [255, 255, 255, 255]) 0
        OperandType.kImm OperandScale.kQuad = some u ∧ u < 4294967296 ∧
      DecodeSignedOperand sampleBytecodes (listBuf [255, 255, 255, 255]) 0
        OperandType.kImm OperandScale.kQuad = some (toSigned 32 u) ∧
      toSigned 32 u % 4294967296 = (u : Int) ∧
      (u < 2147483648 → toSigned 32 u = (u : Int)) ∧
      (2147483648 ≤ u → toSigned 32 u = (u : Int) - 4294967296) :=
  c10_quad_reinterpret sampleBytecodes (listBuf [255, 255, 255, 255]) 0
    OperandType.kImm OperandScale.kQuad (by rfl)

end BytecodeDecoder
